import Mathlib

/-!
Verification of the pteros trajectory-processing core
(`src/analysis/trajectory_processor.cpp`) against its natural-language
specification.

The embedding models:
* the selection predicates `Trajectory_processor::is_frame_valid` and
  `Trajectory_processor::is_end_of_interval`;
* the reader loop `Trajectory_processor::reader_thread_body` as a pure
  state-passing recursion over the ordered file list, where each file is a
  list of frames optionally followed by a read failure;
* the dispatch part of `Trajectory_processor::run` (single-consumer drain and
  multi-consumer fan-out over per-consumer channels);
* the configuration prologue of `Trajectory_processor::run` (consumer check,
  trajectory-block scanning, structure/topology loading, range validation) as
  a trace of observable actions.

C++ `int` is modelled as `Int` and `float` as `Rat` (all comparisons involved
are exact).  `fr % skip` with `skip = 0` is integer division by zero, which is
undefined behaviour in C++; it is modelled by `Option`, with `none` standing
for the undefined outcome.  Likewise dereferencing a null `shared_ptr` is
modelled by an `Option` that is `none` exactly when the pointer is null.
-/

namespace Pteros

/-- Run parameters fetched in `Trajectory_processor::run` (lines 197-207).
Every field uses the source's sentinel `-1` for "unset"; a field is set iff it
is `≥ 0`. -/
structure Params where
  first_frame : Int
  last_frame : Int
  first_time : Rat
  last_time : Rat
  skip : Int
  custom_start_time : Rat
  custom_dt : Rat
  window_size_frames : Int
  window_size_time : Rat
deriving DecidableEq, Repr

/-- Embedding of `Trajectory_processor::is_frame_valid` (lines 86-100):
`(first_frame<0 || fr>=first_frame) && (first_time<0 || t>=first_time) &&
(skip<0 || fr%skip==0)`.  C++ `&&`/`||` short-circuit, so `fr % skip` is
evaluated only when the first two conjuncts hold and `skip ≥ 0`; with
`skip = 0` that evaluation is division by zero (undefined behaviour),
modelled as `none`. -/
def is_frame_valid (p : Params) (fr : Int) (t : Rat) : Option Bool :=
  if ¬ (p.first_frame < 0 ∨ fr ≥ p.first_frame) then some false
  else if ¬ (p.first_time < 0 ∨ t ≥ p.first_time) then some false
  else if p.skip < 0 then some true
  else if p.skip = 0 then none
  else some (decide (fr % p.skip = 0))

/-- The validity formula exactly as the specification (section 4.2) states it:
true iff (first_frame unset OR fr ≥ first_frame) AND (first_time unset OR
t ≥ first_time) AND (skip < 1 OR fr mod skip == 0).  Used only to exhibit
where the source deviates from the specified guard `skip < 1`. -/
def spec_is_frame_valid (p : Params) (fr : Int) (t : Rat) : Bool :=
  decide ((p.first_frame < 0 ∨ fr ≥ p.first_frame) ∧
    (p.first_time < 0 ∨ t ≥ p.first_time) ∧
    (p.skip < 1 ∨ fr % p.skip = 0))

/-- Embedding of `Trajectory_processor::is_end_of_interval` (lines 102-113):
`(fr>last_frame && last_frame>=0) || (t>last_time && last_time>=0)`. -/
def is_end_of_interval (p : Params) (fr : Int) (t : Rat) : Bool :=
  decide ((fr > p.last_frame ∧ p.last_frame ≥ 0) ∨
    (t > p.last_time ∧ p.last_time ≥ 0))

/-- One trajectory frame as read from a file: its embedded simulation time and
an abstract payload identifying the coordinate data. -/
structure Frame where
  t : Rat
  payload : Nat
deriving DecidableEq, Repr

/-- The `Frame_info` record filled in `reader_thread_body` (lines 365-373). -/
structure Frame_info where
  absolute_time : Rat
  absolute_frame : Int
  valid_frame : Int
  win_size_frames : Int
  win_size_time : Rat
  first_frame : Int
  first_time : Rat
  last_frame : Int
  last_time : Rat
deriving DecidableEq, Repr

/-- The `Data_container` sent through the channels: the frame (with its time
possibly overwritten) plus its `frame_info` metadata. -/
structure Data_container where
  frame : Frame
  frame_info : Frame_info
deriving DecidableEq, Repr

/-- One trajectory file: the frames its reader yields in order, and whether
the read after the last yielded frame raises a `Pteros_error` (`fail = true`)
rather than reporting a clean end of file. -/
structure FileData where
  frames : List Frame
  fail : Bool
deriving DecidableEq, Repr

/-- State of the reader loop in `reader_thread_body`: the local variables
`abs_frame`, `valid_frame`, `saved_first_frame`, `saved_first_time`,
`finished` (lines 307-313), plus the history of the channel: how many times
`send_stop` was called so far and the envelopes sent so far, in order. -/
structure RState where
  abs_frame : Int
  valid_frame : Int
  saved_first_frame : Int
  saved_first_time : Rat
  finished : Bool
  stops : Nat
  published : List Data_container
deriving DecidableEq, Repr

/-- Initial reader state (lines 307-313): counters start at `-1`. -/
def init_state : RState :=
  ⟨-1, -1, -1, -1, false, 0, []⟩

/-- Time override (lines 337-340): if `custom_dt` is set the frame's time
becomes `custom_start_time + custom_dt * abs_frame`, otherwise the embedded
time is kept. -/
def eff_time (p : Params) (abs : Int) (t : Rat) : Rat :=
  if p.custom_dt ≥ 0 then p.custom_start_time + p.custom_dt * (abs : Rat) else t

/-- One iteration of the frame loop of `reader_thread_body` (lines 321-377)
for a successfully read frame `f`: advance `abs_frame`, apply the time
override, test end-of-interval (sending stop and setting `finished`), then
test validity (discarding the frame), and otherwise advance `valid_frame`,
snapshot the first accepted index/time, fill `frame_info` and send the
container.  `none` models the undefined evaluation `fr % 0` inside
`is_frame_valid`. -/
def read_step (p : Params) (s : RState) (f : Frame) : Option RState :=
  let abs := s.abs_frame + 1
  let t := eff_time p abs f.t
  if is_end_of_interval p abs t then
    some { s with abs_frame := abs, finished := true, stops := s.stops + 1 }
  else
    match is_frame_valid p abs t with
    | none => none
    | some false => some { s with abs_frame := abs }
    | some true =>
      let v := s.valid_frame + 1
      let ff := if v = 0 then abs else s.saved_first_frame
      let ft := if v = 0 then t else s.saved_first_time
      some { abs_frame := abs, valid_frame := v, saved_first_frame := ff,
             saved_first_time := ft, finished := false, stops := s.stops,
             published := s.published ++
               [⟨⟨t, f.payload⟩, ⟨t, abs, v, p.window_size_frames,
                 p.window_size_time, ff, ft, abs, t⟩⟩] }

/-- The frame loop over one file (lines 321-377): process frames in order
until the file is exhausted or `finished` is set (the `break` on line 348). -/
def run_file (p : Params) : RState → List Frame → Option RState
  | s, [] => some s
  | s, f :: rest =>
    match read_step p s f with
    | none => none
    | some s' => if s'.finished then some s' else run_file p s' rest

/-- The file loop of `reader_thread_body` (lines 315-394) together with its
surrounding try/catch.  Files are opened one at a time in order; after a file
ends, `finished` breaks the outer loop (line 382); a file whose next read
raises (`fail = true`) transfers control to the catch block, which sends stop
and exits — the returned flag records whether the run ended in the catch
block.  In every terminating case one final `send_stop` is accounted to the
state (line 387 or line 391). -/
def run_files (p : Params) : RState → List FileData → Option (RState × Bool)
  | s, [] => some ({ s with stops := s.stops + 1 }, false)
  | s, fd :: rest =>
    match run_file p s fd.frames with
    | none => none
    | some s' =>
      if s'.finished then some ({ s' with stops := s'.stops + 1 }, false)
      else if fd.fail then some ({ s' with stops := s'.stops + 1 }, true)
      else run_files p s' rest

/-- The whole reader thread: the sequence of envelopes it sent to the shared
channel, in order.  `none` only for the undefined `fr % 0` evaluation. -/
def reader_thread_body (p : Params) (files : List FileData) :
    Option (List Data_container) :=
  (run_files p init_state files).map fun r => r.1.published

/-- Total number of frames physically present in a file list. -/
def total_frames (files : List FileData) : Nat :=
  (files.map fun fd => fd.frames.length).sum

/-- History of one per-consumer channel in fan-out mode: the envelopes sent to
it in order, and how many times `send_stop` was called on it. -/
structure WorkerChannel where
  items : List Data_container
  stops : Nat
deriving DecidableEq, Repr

/-- Body of the fan-out forwarding loops (lines 252-254 and 261-263): send the
received envelope to every consumer channel. -/
def forward_to_all (ws : List WorkerChannel) (d : Data_container) :
    List WorkerChannel :=
  ws.map fun w => ⟨w.items ++ [d], w.stops⟩

/-- The two receive loops of the fan-out path (lines 251-264), folded over the
sequence of envelopes the source channel delivers.  By the channel contract
(FIFO, no item dropped, `recieve` returns false only once stopped and
drained), that sequence is exactly the reader's published sequence: the first
loop receives until the stop is observed, the drain loop receives whatever
was still buffered, and both loops forward identically. -/
def fanout_forward (ws : List WorkerChannel) :
    List Data_container → List WorkerChannel
  | [] => ws
  | d :: rest => fanout_forward (forward_to_all ws d) rest

/-- The fan-out path of `Trajectory_processor::run` (lines 233-269) for `n`
consumers: create one channel per consumer, forward every delivered envelope
to all of them in order, then call `send_stop` on each channel once
(lines 267-269). -/
def fanout_path (source : List Data_container) (n : Nat) : List WorkerChannel :=
  (fanout_forward (List.replicate n ⟨[], 0⟩) source).map
    fun w => ⟨w.items, w.stops + 1⟩

/-- The shared pointer `data` after the single-consumer receive loops
(lines 280-287): the last envelope received, or `none` (a null pointer) when
the reader delivered nothing. -/
def single_last_data (source : List Data_container) : Option Data_container :=
  source.getLast?

/-- The argument of the `post_process` call on line 289, which dereferences
`data`: `none` models the null-pointer dereference `data->frame_info` that
happens when no frame was ever delivered. -/
def single_post_process_arg (source : List Data_container) : Option Frame_info :=
  (single_last_data source).map Data_container.frame_info

/-- Sequence of metadata consumer 0 observes through `consume_frame` in the
single-consumer path (lines 281-287): one call per received envelope, in
channel order. -/
def single_consumer_observed (source : List Data_container) : List Frame_info :=
  source.map Data_container.frame_info

/-- Modelled from the spec: `Consumer_base::run_in_thread` is not among the
sources; per section 4.4 each fan-out worker receives and consumes every
envelope of its own channel in order until the channel closes, so the
metadata sequence the consumer observes is its channel's item sequence. -/
def consumer_observed (w : WorkerChannel) : List Frame_info :=
  w.items.map Data_container.frame_info

/-- File kinds returned by `recognize_format` for the trajectory block
(lines 147-164); `other` stands for any unrecognized kind, which the switch
ignores. -/
inductive FileKind
  | pdb
  | gro
  | pttop
  | trr
  | xtc
  | dcd
  | other
deriving DecidableEq, Repr

/-- Errors thrown (as `Pteros_error`) by the prologue of
`Trajectory_processor::run`. -/
inductive RunError
  | no_consumers
  | multiple_structure
  | multiple_topology
  | no_traj_files
  | bad_frame_range
  | bad_time_range
deriving DecidableEq, Repr

/-- Observable actions of the prologue of `Trajectory_processor::run`, in
program order: opening the dump file (line 131), clearing the first
consumer's system (line 171), loading the structure or topology file
(lines 173-182), constructing — without throwing — the missing-file error
(line 184), copying the system to the other consumers (lines 188-193), and
starting threads (lines 228 and 241-246). -/
inductive Action
  | open_dump
  | clear_system
  | load_structure
  | load_topology
  | construct_unthrown_error
  | copy_system_to (i : Nat)
  | start_reader_thread
  | start_worker_thread (i : Nat)
deriving DecidableEq, Repr

/-- Scan of the trajectory block (lines 144-164): classify each file,
rejecting a second structure file (line 151) or a second topology file
(line 155), collecting trajectory files in order and ignoring everything
else. -/
def scan_block :
    List FileKind → Option FileKind → Option FileKind → List FileKind →
      Except RunError (Option FileKind × Option FileKind × List FileKind)
  | [], st, tp, trj => .ok (st, tp, trj)
  | k :: rest, st, tp, trj =>
    match k with
    | .pdb =>
      if st.isSome then .error .multiple_structure
      else scan_block rest (some k) tp trj
    | .gro =>
      if st.isSome then .error .multiple_structure
      else scan_block rest (some k) tp trj
    | .pttop =>
      if tp.isSome then .error .multiple_topology
      else scan_block rest st (some k) trj
    | .trr => scan_block rest st tp (trj ++ [k])
    | .xtc => scan_block rest st tp (trj ++ [k])
    | .dcd => scan_block rest st tp (trj ++ [k])
    | .other => scan_block rest st tp trj

/-- Configuration of one call to `Trajectory_processor::run`: number of
registered consumers, whether a dump of the input was requested, the files of
the trajectory block in order, and the range options. -/
structure RunConfig where
  n_consumers : Nat
  dump_input : Bool
  block_files : List FileKind
  first_frame : Int
  last_frame : Int
  first_time : Rat
  last_time : Rat
deriving DecidableEq, Repr

/-- Result of the prologue of `Trajectory_processor::run`: the trace of
actions performed, the error thrown (if any), and the contents of the first
consumer's system (the files loaded into it after it was cleared). -/
structure Prologue where
  trace : List Action
  error : Option RunError
  sys0 : List FileKind
deriving DecidableEq, Repr

/-- The prologue of `Trajectory_processor::run` (lines 120-246), executed in
source order: consumer check (line 124), optional dump of the input
(lines 128-134), trajectory-block scan (lines 140-164), trajectory-file check
(line 166), system clearing and structure/topology loading (lines 170-185) —
where the branch with neither file constructs a `Pteros_error` but never
throws it (line 184) — system copying (lines 188-193), range validation
(lines 211-215), and thread startup (lines 228-247). -/
def run_prologue (cfg : RunConfig) : Prologue :=
  if cfg.n_consumers = 0 then ⟨[], some .no_consumers, []⟩
  else
    let tr0 : List Action := if cfg.dump_input then [.open_dump] else []
    match scan_block cfg.block_files none none [] with
    | .error e => ⟨tr0, some e, []⟩
    | .ok (st, tp, trj) =>
      if trj = [] then ⟨tr0, some .no_traj_files, []⟩
      else
        let loaded : List Action × List FileKind :=
          match st, tp with
          | some _, none => ([.load_structure], [st.getD .other])
          | none, some _ => ([.load_topology], [tp.getD .other])
          | some _, some _ =>
            ([.load_structure, .load_topology], [st.getD .other, tp.getD .other])
          | none, none => ([.construct_unthrown_error], [])
        let tr1 := tr0 ++ [Action.clear_system] ++ loaded.1
        let tr2 := tr1 ++
          (List.range (cfg.n_consumers - 1)).map fun i => Action.copy_system_to (i + 1)
        if cfg.first_frame ≥ 0 ∧ cfg.last_frame ≥ 0 ∧
            cfg.last_frame < cfg.first_frame then
          ⟨tr2, some .bad_frame_range, loaded.2⟩
        else if cfg.first_time ≥ 0 ∧ cfg.last_time ≥ 0 ∧
            cfg.last_time < cfg.first_time then
          ⟨tr2, some .bad_time_range, loaded.2⟩
        else
          ⟨tr2 ++ [Action.start_reader_thread] ++
            (if 2 ≤ cfg.n_consumers then
              (List.range cfg.n_consumers).map fun i => Action.start_worker_thread i
             else []),
           none, loaded.2⟩

/-- The published list carries consecutive valid-frame ordinals starting at
`k`. -/
def ordinal_from : Int → List Data_container → Prop
  | _, [] => True
  | k, d :: rest => d.frame_info.valid_frame = k ∧ ordinal_from (k + 1) rest

/-- Absolute frame indices are strictly increasing along the list. -/
def abs_mono (l : List Data_container) : Prop :=
  l.Pairwise fun a b => a.frame_info.absolute_frame < b.frame_info.absolute_frame

/-- Parameters with every option unset, as fetched when none is supplied. -/
def p_default : Params :=
  ⟨-1, -1, -1, -1, -1, -1, -1, -1, -1⟩

/-- A sample run input: one trajectory file holding two frames. -/
def sample_files : List FileData :=
  [⟨[⟨5, 100⟩, ⟨7, 101⟩], false⟩]

/-- The envelopes the reader publishes for `sample_files` under `p_default`. -/
def sample_out : List Data_container :=
  [⟨⟨5, 100⟩, ⟨5, 0, 0, -1, -1, 0, 5, 0, 5⟩⟩,
   ⟨⟨7, 101⟩, ⟨7, 1, 1, -1, -1, 0, 5, 1, 7⟩⟩]

/-- Parameters requesting the time override: `custom_start_time = 10`,
`custom_dt = 2`. -/
def p_override : Params :=
  ⟨-1, -1, -1, -1, -1, 10, 2, -1, -1⟩

/-- One file of six frames whose embedded times are all `999`. -/
def override_files : List FileData :=
  [⟨[⟨999, 0⟩, ⟨999, 1⟩, ⟨999, 2⟩, ⟨999, 3⟩, ⟨999, 4⟩, ⟨999, 5⟩], false⟩]

/-- The envelopes published for `override_files` under `p_override`: times are
`10 + 2 * k`, the embedded `999` is discarded. -/
def override_out : List Data_container :=
  [⟨⟨10, 0⟩, ⟨10, 0, 0, -1, -1, 0, 10, 0, 10⟩⟩,
   ⟨⟨12, 1⟩, ⟨12, 1, 1, -1, -1, 0, 10, 1, 12⟩⟩,
   ⟨⟨14, 2⟩, ⟨14, 2, 2, -1, -1, 0, 10, 2, 14⟩⟩,
   ⟨⟨16, 3⟩, ⟨16, 3, 3, -1, -1, 0, 10, 3, 16⟩⟩,
   ⟨⟨18, 4⟩, ⟨18, 4, 4, -1, -1, 0, 10, 4, 18⟩⟩,
   ⟨⟨20, 5⟩, ⟨20, 5, 5, -1, -1, 0, 10, 5, 20⟩⟩]

theorem fanout_forward_eq (src : List Data_container) :
    ∀ ws : List WorkerChannel,
      fanout_forward ws src = ws.map fun w => ⟨w.items ++ src, w.stops⟩ := by
  induction src with
  | nil =>
    intro ws
    simp only [fanout_forward, List.append_nil]
    exact (List.map_id ws).symm ▸ (by simp)
  | cons d rest ih =>
    intro ws
    simp only [fanout_forward, forward_to_all, ih, List.map_map]
    congr 1
    funext w
    simp [List.append_assoc]

theorem fanout_path_eq (src : List Data_container) (n : Nat) :
    fanout_path src n = List.replicate n ⟨src, 1⟩ := by
  simp [fanout_path, fanout_forward_eq, List.map_replicate]

theorem run_files_fst_fail_eq (p : Params) (frames : List Frame) :
    ∀ (files : List FileData) (s : RState),
      (run_files p s (files ++ [⟨frames, true⟩])).map Prod.fst =
        (run_files p s (files ++ [⟨frames, false⟩])).map Prod.fst := by
  intro files
  induction files with
  | nil =>
    intro s
    simp only [List.nil_append, run_files]
    cases run_file p s frames with
    | none => rfl
    | some s' =>
      by_cases hf : s'.finished
      · simp [hf]
      · simp [hf, run_files]
  | cons fd rest ih =>
    intro s
    simp only [List.cons_append, run_files]
    cases run_file p s fd.frames with
    | none => rfl
    | some s' =>
      by_cases h1 : s'.finished
      · simp [h1]
      · by_cases h2 : fd.fail
        · simp [h1, h2]
        · simp [h1, h2, ih]

/-- C1.  In the single-consumer path the claim fails on the code: when the
Filter rejects every frame the reader publishes nothing, the shared pointer
`data` stays null through both receive loops, and line 289 dereferences it in
`post_process_handler(data->frame_info)` — there is no explicit
"no frames delivered" indicator.  With `first_frame = 10` and a two-frame
trajectory the reader delivers nothing and the `post_process` argument is the
dereference of a null pointer (`none`). -/
theorem c1_post_process_null_deref :
    reader_thread_body ⟨10, -1, -1, -1, -1, -1, -1, -1, -1⟩
        [⟨[⟨0, 0⟩, ⟨1, 1⟩], false⟩] = some [] ∧
      single_post_process_arg [] = none := by
  decide

/-- C2.  The claim fails on the code: the guard in `is_frame_valid`
(line 92) is `skip < 0`, not `skip < 1`, so for `skip = 0` the code evaluates
`fr % 0` — integer division by zero, undefined behaviour — instead of
disabling subsampling, while the specified formula accepts the frame. -/
theorem c2_skip_zero_undefined :
    is_frame_valid ⟨-1, -1, -1, -1, 0, -1, -1, -1, -1⟩ 1 0 = none ∧
      spec_is_frame_valid ⟨-1, -1, -1, -1, 0, -1, -1, -1, -1⟩ 1 0 = true := by
  decide

theorem is_frame_valid_eq_spec_of_skip_nonzero (p : Params) (fr : Int)
    (t : Rat) (h : p.skip ≠ 0) :
    is_frame_valid p fr t = some (spec_is_frame_valid p fr t) := by
  unfold is_frame_valid spec_is_frame_valid
  by_cases h1 : p.first_frame < 0 ∨ fr ≥ p.first_frame
  · by_cases h2 : p.first_time < 0 ∨ t ≥ p.first_time
    · by_cases h3 : p.skip < 0
      · simp [h1, h2, h3, show p.skip < 1 by omega]
      · simp [h1, h2, h3, h, show ¬ p.skip < 1 by omega]
    · simp [h1, h2]
  · simp [h1]

/-- C3.  A read failure raised by the source after its first `frames` have
been read is caught inside the reader thread (the catch block on line 389)
and converted to a stop on the channel: the published sequence is exactly the
one a clean end of file would have produced, and in fan-out mode every
consumer channel receives exactly that sequence, in order, followed by one
stop. -/
theorem c3_read_failure_contained (p : Params) (files : List FileData)
    (frames : List Frame) (n : Nat) :
    reader_thread_body p (files ++ [⟨frames, true⟩]) =
        reader_thread_body p (files ++ [⟨frames, false⟩]) ∧
      ∀ out, reader_thread_body p (files ++ [⟨frames, true⟩]) = some out →
        ∀ w ∈ fanout_path out n, w.items = out ∧ w.stops = 1 := by
  constructor
  · unfold reader_thread_body
    have hmap : ∀ (o : Option (RState × Bool)),
        o.map (fun r => r.1.published) = (o.map Prod.fst).map RState.published := by
      intro o; cases o <;> rfl
    rw [hmap, hmap, run_files_fst_fail_eq]
  · intro out hout w hw
    rw [fanout_path_eq] at hw
    have hweq := List.eq_of_mem_replicate hw
    simp [hweq]

theorem c3_read_failure_contained_witness :
    reader_thread_body p_default [⟨[⟨5, 100⟩, ⟨7, 101⟩], true⟩] =
        reader_thread_body p_default [⟨[⟨5, 100⟩, ⟨7, 101⟩], false⟩] ∧
      ∀ w ∈ fanout_path sample_out 2, w.items = sample_out ∧ w.stops = 1 :=
  ⟨(c3_read_failure_contained p_default [] [⟨5, 100⟩, ⟨7, 101⟩] 2).1,
   (c3_read_failure_contained p_default [] [⟨5, 100⟩, ⟨7, 101⟩] 2).2
     sample_out (by decide)⟩

/-- C5.  In fan-out mode the dispatcher loop sends every envelope delivered
by the source channel to every consumer channel in arrival order, and after
the source's end-of-stream sends stop to every consumer channel exactly once:
each of the `n ≥ 2` consumer channels receives exactly the reader's sequence,
in the reader's order, and exactly one stop. -/
theorem c5_fanout_order_preserved (source : List Data_container) (n : Nat)
    (hn : 2 ≤ n) :
    (fanout_path source n).length = n ∧
      ∀ w ∈ fanout_path source n, w.items = source ∧ w.stops = 1 := by
  refine ⟨by simp [fanout_path_eq], ?_⟩
  intro w hw
  rw [fanout_path_eq] at hw
  have hweq := List.eq_of_mem_replicate hw
  simp [hweq]

theorem c5_fanout_order_preserved_witness :
    2 ≤ 3 ∧
      ((fanout_path [⟨⟨0, 1⟩, ⟨0, 0, 0, -1, -1, 0, 0, 0, 0⟩⟩,
          ⟨⟨1, 2⟩, ⟨1, 1, 1, -1, -1, 0, 0, 1, 1⟩⟩,
          ⟨⟨2, 3⟩, ⟨2, 2, 2, -1, -1, 0, 0, 2, 2⟩⟩] 3).length = 3 ∧
        ∀ w ∈ fanout_path [⟨⟨0, 1⟩, ⟨0, 0, 0, -1, -1, 0, 0, 0, 0⟩⟩,
            ⟨⟨1, 2⟩, ⟨1, 1, 1, -1, -1, 0, 0, 1, 1⟩⟩,
            ⟨⟨2, 3⟩, ⟨2, 2, 2, -1, -1, 0, 0, 2, 2⟩⟩] 3,
          w.items = [⟨⟨0, 1⟩, ⟨0, 0, 0, -1, -1, 0, 0, 0, 0⟩⟩,
            ⟨⟨1, 2⟩, ⟨1, 1, 1, -1, -1, 0, 0, 1, 1⟩⟩,
            ⟨⟨2, 3⟩, ⟨2, 2, 2, -1, -1, 0, 0, 2, 2⟩⟩] ∧ w.stops = 1) :=
  ⟨by decide, c5_fanout_order_preserved _ 3 (by decide)⟩

/-- C9.  For the same reader output, consumer 0 observes the same metadata
sequence in the single-consumer path and in an `n ≥ 2` fan-out: both equal
the reader's published sequence of `frame_info` records, in order. -/
theorem c9_single_fanout_equiv (p : Params) (files : List FileData)
    (out : List Data_container) (n : Nat)
    (h : reader_thread_body p files = some out) (hn : 2 ≤ n) :
    ((fanout_path out n).head?).map consumer_observed =
      some (single_consumer_observed out) := by
  rw [fanout_path_eq]
  obtain ⟨m, rfl⟩ : ∃ m, n = m + 1 := ⟨n - 1, by omega⟩
  simp [List.replicate_succ, consumer_observed, single_consumer_observed]

theorem c9_single_fanout_equiv_witness :
    ((fanout_path sample_out 2).head?).map consumer_observed =
      some (single_consumer_observed sample_out) :=
  c9_single_fanout_equiv p_default sample_files sample_out 2 (by decide)
    (by decide)

/-- C7.  When the frame at absolute index `s.abs_frame + 1` (with its
effective, possibly overridden, time) reaches the end of the requested
interval, the reader sends stop on the channel and terminates the whole read
loop at once: the triggering frame is not published, no later frame of the
current file is read, no remaining file is opened, and the final state is
exactly the stop state.  The conclusion holds for every parameter record,
including `skip = 0` for which evaluating `is_frame_valid` would be
undefined — evidence that end-of-interval is checked before validity. -/
theorem c7_end_of_interval_hard_stop (p : Params) (s : RState) (f : Frame)
    (frames : List Frame) (b : Bool) (files : List FileData)
    (h : is_end_of_interval p (s.abs_frame + 1)
        (eff_time p (s.abs_frame + 1) f.t) = true) :
    run_files p s (⟨f :: frames, b⟩ :: files) =
        some ({ s with abs_frame := s.abs_frame + 1
                       finished := true
                       stops := s.stops + 2 }, false) ∧
      ∀ s' e, run_files p s (⟨f :: frames, b⟩ :: files) = some (s', e) →
        s'.published = s.published := by
  have hstep : read_step p s f =
      some { s with abs_frame := s.abs_frame + 1
                    finished := true
                    stops := s.stops + 1 } := by
    simp [read_step, h]
  have hmain : run_files p s (⟨f :: frames, b⟩ :: files) =
      some ({ s with abs_frame := s.abs_frame + 1
                     finished := true
                     stops := s.stops + 2 }, false) := by
    simp [run_files, run_file, hstep]
  refine ⟨hmain, ?_⟩
  intro s' e hs'
  rw [hmain] at hs'
  cases hs'
  rfl

theorem ordinal_from_append (d : Data_container) :
    ∀ (l : List Data_container) (k : Int),
      ordinal_from k l → d.frame_info.valid_frame = k + l.length →
        ordinal_from k (l ++ [d]) := by
  intro l
  induction l with
  | nil =>
    intro k _ hd
    exact ⟨by simpa using hd, trivial⟩
  | cons a rest ih =>
    intro k h hd
    refine ⟨h.1, ih (k + 1) h.2 ?_⟩
    simp only [List.length_cons] at hd
    push_cast at hd ⊢
    omega

/-- Invariant of the reader loop: the published envelopes carry consecutive
valid-frame ordinals from 0, the count matches the `valid_frame` counter,
absolute indices are strictly increasing and bounded by the current
`abs_frame`, and every published time obeys the override rule. -/
structure ReaderInv (p : Params) (s : RState) : Prop where
  ord : ordinal_from 0 s.published
  cnt : (s.published.length : Int) = s.valid_frame + 1
  mono : abs_mono s.published
  bound : ∀ d ∈ s.published, d.frame_info.absolute_frame ≤ s.abs_frame
  time : ∀ d ∈ s.published, p.custom_dt ≥ 0 →
    d.frame_info.absolute_time =
      p.custom_start_time + p.custom_dt * (d.frame_info.absolute_frame : Rat)
  ft : ∀ d ∈ s.published, d.frame.t = d.frame_info.absolute_time

theorem readerInv_init (p : Params) : ReaderInv p init_state :=
  ⟨trivial, by decide, List.Pairwise.nil, by simp [init_state],
   by simp [init_state], by simp [init_state]⟩

theorem read_step_abs (p : Params) (s : RState) (f : Frame) (s' : RState)
    (h : read_step p s f = some s') : s'.abs_frame = s.abs_frame + 1 := by
  simp only [read_step] at h
  split at h
  · cases h; rfl
  · split at h
    · cases h
    · cases h; rfl
    · cases h; rfl

theorem read_step_inv (p : Params) (s : RState) (f : Frame) (s' : RState)
    (h : read_step p s f = some s') (hi : ReaderInv p s) : ReaderInv p s' := by
  simp only [read_step] at h
  split at h
  · cases h
    refine ⟨hi.ord, hi.cnt, hi.mono, ?_, hi.time, hi.ft⟩
    intro d hd
    dsimp only
    have := hi.bound d hd
    omega
  · split at h
    · cases h
    · cases h
      refine ⟨hi.ord, hi.cnt, hi.mono, ?_, hi.time, hi.ft⟩
      intro d hd
      dsimp only
      have := hi.bound d hd
      omega
    · cases h
      have hc := hi.cnt
      refine ⟨?_, ?_, ?_, ?_, ?_, ?_⟩ <;> dsimp only
      · refine ordinal_from_append _ _ _ hi.ord ?_
        dsimp only
        omega
      · simp only [List.length_append, List.length_singleton]
        push_cast at hc ⊢
        omega
      · rw [abs_mono, List.pairwise_append]
        refine ⟨hi.mono, List.pairwise_singleton _ _, ?_⟩
        intro a ha b hb
        simp only [List.mem_singleton] at hb
        subst hb
        dsimp only
        have := hi.bound a ha
        omega
      · intro d hd
        rcases List.mem_append.mp hd with hd | hd
        · have := hi.bound d hd
          omega
        · simp only [List.mem_singleton] at hd
          subst hd
          dsimp only
          omega
      · intro d hd hdt
        rcases List.mem_append.mp hd with hd | hd
        · exact hi.time d hd hdt
        · simp only [List.mem_singleton] at hd
          subst hd
          dsimp only
          simp [eff_time, hdt]
      · intro d hd
        rcases List.mem_append.mp hd with hd | hd
        · exact hi.ft d hd
        · simp only [List.mem_singleton] at hd
          subst hd
          rfl

theorem run_file_inv (p : Params) :
    ∀ (frames : List Frame) (s s' : RState),
      run_file p s frames = some s' → ReaderInv p s → ReaderInv p s' := by
  intro frames
  induction frames with
  | nil =>
    intro s s' h hi
    simp only [run_file] at h
    cases h
    exact hi
  | cons f rest ih =>
    intro s s' h hi
    simp only [run_file] at h
    cases hstep : read_step p s f with
    | none => rw [hstep] at h; cases h
    | some s1 =>
      rw [hstep] at h
      dsimp only at h
      have hi1 := read_step_inv p s f s1 hstep hi
      by_cases h1 : s1.finished = true
      · rw [if_pos h1] at h
        cases h
        exact hi1
      · rw [if_neg h1] at h
        exact ih s1 s' h hi1

theorem run_files_inv (p : Params) :
    ∀ (files : List FileData) (s s' : RState) (e : Bool),
      run_files p s files = some (s', e) → ReaderInv p s → ReaderInv p s' := by
  intro files
  induction files with
  | nil =>
    intro s s' e h hi
    simp only [run_files] at h
    cases h
    exact ⟨hi.ord, hi.cnt, hi.mono, hi.bound, hi.time, hi.ft⟩
  | cons fd rest ih =>
    intro s s' e h hi
    simp only [run_files] at h
    cases hrf : run_file p s fd.frames with
    | none => rw [hrf] at h; cases h
    | some s1 =>
      rw [hrf] at h
      dsimp only at h
      have hi1 := run_file_inv p fd.frames s s1 hrf hi
      by_cases h1 : s1.finished = true
      · rw [if_pos h1] at h
        cases h
        exact ⟨hi1.ord, hi1.cnt, hi1.mono, hi1.bound, hi1.time, hi1.ft⟩
      · rw [if_neg h1] at h
        by_cases h2 : fd.fail = true
        · rw [if_pos h2] at h
          cases h
          exact ⟨hi1.ord, hi1.cnt, hi1.mono, hi1.bound, hi1.time, hi1.ft⟩
        · rw [if_neg h2] at h
          exact ih s1 s' e h hi1

theorem run_file_abs_complete (p : Params) :
    ∀ (frames : List Frame) (s s' : RState),
      run_file p s frames = some s' → s'.finished = false →
        s'.abs_frame = s.abs_frame + frames.length := by
  intro frames
  induction frames with
  | nil =>
    intro s s' h hf
    simp only [run_file] at h
    cases h
    simp
  | cons f rest ih =>
    intro s s' h hf
    simp only [run_file] at h
    cases hstep : read_step p s f with
    | none => rw [hstep] at h; cases h
    | some s1 =>
      rw [hstep] at h
      dsimp only at h
      by_cases h1 : s1.finished = true
      · rw [if_pos h1] at h
        cases h
        rw [hf] at h1
        cases h1
      · rw [if_neg h1] at h
        have hrec := ih s1 s' h hf
        have habs := read_step_abs p s f s1 hstep
        rw [hrec, habs]
        simp only [List.length_cons]
        push_cast
        omega

theorem run_files_abs_complete (p : Params) :
    ∀ (files : List FileData) (s s' : RState),
      run_files p s files = some (s', false) → s'.finished = false →
        s'.abs_frame = s.abs_frame + total_frames files := by
  intro files
  induction files with
  | nil =>
    intro s s' h hf
    simp only [run_files] at h
    cases h
    simp [total_frames]
  | cons fd rest ih =>
    intro s s' h hf
    simp only [run_files] at h
    cases hrf : run_file p s fd.frames with
    | none => rw [hrf] at h; cases h
    | some s1 =>
      rw [hrf] at h
      dsimp only at h
      by_cases h1 : s1.finished = true
      · rw [if_pos h1] at h
        cases h
        dsimp only at hf
        rw [hf] at h1
        cases h1
      · rw [if_neg h1] at h
        by_cases h2 : fd.fail = true
        · rw [if_pos h2] at h
          simp at h
        · rw [if_neg h2] at h
          have hrec := ih s1 s' h hf
          have h3 := run_file_abs_complete p fd.frames s s1 hrf
            (Bool.not_eq_true _ ▸ h1)
          rw [hrec, h3]
          simp only [total_frames, List.map_cons, List.sum_cons]
          push_cast
          omega

/-- C6.  Over every run of the reader loop the published stream carries
0-based, consecutive (hence strictly monotonic) valid-frame ordinals, its
absolute frame indices are strictly increasing across the whole file list
(never reset at a file boundary), and in a run that neither stops early nor
fails, the final absolute index has been incremented exactly once per frame
physically read: it ends at `total_frames files - 1`, having started
at `-1`. -/
theorem c6_counter_invariants (p : Params) (files : List FileData)
    (out : List Data_container) (h : reader_thread_body p files = some out) :
    ordinal_from 0 out ∧ abs_mono out ∧
      ∀ s, run_files p init_state files = some (s, false) →
        s.finished = false → s.abs_frame + 1 = (total_frames files : Int) := by
  obtain ⟨r, hrun, hpub⟩ := Option.map_eq_some'.mp h
  have hinv := run_files_inv p files init_state r.1 r.2 (by rw [hrun]) (readerInv_init p)
  refine ⟨hpub ▸ hinv.ord, hpub ▸ hinv.mono, ?_⟩
  intro s hs hf
  have habs := run_files_abs_complete p files init_state s hs hf
  simp only [init_state] at habs
  omega

theorem c6_counter_invariants_witness :
    ordinal_from 0 sample_out ∧ abs_mono sample_out ∧
      ∀ s, run_files p_default init_state sample_files = some (s, false) →
        s.finished = false →
        s.abs_frame + 1 = (total_frames sample_files : Int) :=
  c6_counter_invariants p_default sample_files sample_out (by decide)

/-- C8.  Whenever `custom_dt` is set (`≥ 0`), every envelope the reader
publishes carries the overridden time `custom_start_time + custom_dt *
absolute_index`, both in its metadata and in the frame itself — the time
embedded in the source data is discarded. -/
theorem c8_custom_time_override (p : Params) (files : List FileData)
    (out : List Data_container) (h : reader_thread_body p files = some out)
    (hdt : p.custom_dt ≥ 0) :
    ∀ d ∈ out,
      d.frame_info.absolute_time =
          p.custom_start_time +
            p.custom_dt * (d.frame_info.absolute_frame : Rat) ∧
        d.frame.t = d.frame_info.absolute_time := by
  obtain ⟨r, hrun, hpub⟩ := Option.map_eq_some'.mp h
  have hinv := run_files_inv p files init_state r.1 r.2 (by rw [hrun]) (readerInv_init p)
  intro d hd
  rw [← hpub] at hd
  exact ⟨hinv.time d hd hdt, hinv.ft d hd⟩

theorem override_reader_eval :
    reader_thread_body p_override override_files = some override_out := by
  norm_num [reader_thread_body, run_files, run_file, read_step, eff_time,
    is_end_of_interval, is_frame_valid, init_state, p_override, override_files,
    override_out]

theorem c8_custom_time_override_witness :
    (⟨⟨20, 5⟩, ⟨20, 5, 5, -1, -1, 0, 10, 5, 20⟩⟩ :
        Data_container).frame_info.absolute_time =
        p_override.custom_start_time + p_override.custom_dt *
          ((⟨⟨20, 5⟩, ⟨20, 5, 5, -1, -1, 0, 10, 5, 20⟩⟩ :
            Data_container).frame_info.absolute_frame : Rat) ∧
      (⟨⟨20, 5⟩, ⟨20, 5, 5, -1, -1, 0, 10, 5, 20⟩⟩ :
        Data_container).frame.t =
        (⟨⟨20, 5⟩, ⟨20, 5, 5, -1, -1, 0, 10, 5, 20⟩⟩ :
          Data_container).frame_info.absolute_time :=
  c8_custom_time_override p_override override_files override_out
    override_reader_eval (by norm_num [p_override])
    ⟨⟨20, 5⟩, ⟨20, 5, 5, -1, -1, 0, 10, 5, 20⟩⟩ (by decide)

theorem c7_end_of_interval_hard_stop_witness :
    run_files ⟨-1, 3, -1, -1, 0, -1, -1, -1, -1⟩ ⟨5, 2, 0, 0, false, 0, []⟩
        (⟨[⟨0, 7⟩, ⟨1, 8⟩], false⟩ :: [⟨[⟨2, 9⟩], false⟩]) =
      some (⟨6, 2, 0, 0, true, 2, []⟩, false) :=
  (c7_end_of_interval_hard_stop ⟨-1, 3, -1, -1, 0, -1, -1, -1, -1⟩
    ⟨5, 2, 0, 0, false, 0, []⟩ ⟨0, 7⟩ [⟨1, 8⟩] false [⟨[⟨2, 9⟩], false⟩]
    (by decide)).1

theorem run_prologue_threads_only_on_success (cfg : RunConfig)
    (h : ((run_prologue cfg).error).isSome) :
    Action.start_reader_thread ∉ (run_prologue cfg).trace ∧
      ∀ i, Action.start_worker_thread i ∉ (run_prologue cfg).trace := by
  by_cases h0 : cfg.n_consumers = 0
  · simp [run_prologue, h0]
  · cases hscan : scan_block cfg.block_files none none [] with
    | error e =>
      by_cases hd : cfg.dump_input <;> simp [run_prologue, h0, hscan, hd]
    | ok res =>
      obtain ⟨st, tp, trj⟩ := res
      by_cases htrj : trj = []
      · by_cases hd : cfg.dump_input <;> simp [run_prologue, h0, hscan, htrj, hd]
      · by_cases h4 : cfg.first_frame ≥ 0 ∧ cfg.last_frame ≥ 0 ∧
            cfg.last_frame < cfg.first_frame
        · rcases st with _ | sk <;> rcases tp with _ | tk <;>
            by_cases hd : cfg.dump_input <;>
            simp [run_prologue, h0, hscan, htrj, h4, hd]
        · by_cases h5 : cfg.first_time ≥ 0 ∧ cfg.last_time ≥ 0 ∧
              cfg.last_time < cfg.first_time
          · rcases st with _ | sk <;> rcases tp with _ | tk <;>
              by_cases hd : cfg.dump_input <;>
              simp [run_prologue, h0, hscan, htrj, h4, h5, hd]
          · rcases st with _ | sk <;> rcases tp with _ | tk <;>
              simp [run_prologue, h0, hscan, htrj, h4, h5] at h

theorem run_prologue_no_consumers (cfg : RunConfig)
    (h0 : cfg.n_consumers = 0) :
    (run_prologue cfg).error = some RunError.no_consumers := by
  simp [run_prologue, h0]

theorem run_prologue_bad_frame_range (cfg : RunConfig)
    (ha : cfg.first_frame ≥ 0) (hb : cfg.last_frame ≥ 0)
    (hc : cfg.last_frame < cfg.first_frame) :
    ((run_prologue cfg).error).isSome := by
  by_cases h0 : cfg.n_consumers = 0
  · simp [run_prologue, h0]
  · cases hscan : scan_block cfg.block_files none none [] with
    | error e => simp [run_prologue, h0, hscan]
    | ok res =>
      obtain ⟨st, tp, trj⟩ := res
      by_cases htrj : trj = []
      · simp [run_prologue, h0, hscan, htrj]
      · simp [run_prologue, h0, hscan, htrj, ha, hb, hc]

theorem run_prologue_bad_time_range (cfg : RunConfig)
    (ha : cfg.first_time ≥ 0) (hb : cfg.last_time ≥ 0)
    (hc : cfg.last_time < cfg.first_time) :
    ((run_prologue cfg).error).isSome := by
  by_cases h0 : cfg.n_consumers = 0
  · simp [run_prologue, h0]
  · cases hscan : scan_block cfg.block_files none none [] with
    | error e => simp [run_prologue, h0, hscan]
    | ok res =>
      obtain ⟨st, tp, trj⟩ := res
      by_cases htrj : trj = []
      · simp [run_prologue, h0, hscan, htrj]
      · by_cases h4 : cfg.first_frame ≥ 0 ∧ cfg.last_frame ≥ 0 ∧
            cfg.last_frame < cfg.first_frame
        · simp [run_prologue, h0, hscan, htrj, h4]
        · simp [run_prologue, h0, hscan, htrj, h4, ha, hb, hc]

/-- C4 (counterexample).  The claim "before any file is opened" fails on the
code: with one consumer, a structure file and a trajectory file, and
`first_frame = 5 > last_frame = 2`, the invalid-range error is thrown
(lines 211-213) only after the structure file has already been loaded into
the first consumer's system (line 175). -/
theorem c4_range_error_after_file_opened :
    (run_prologue ⟨1, false, [FileKind.gro, FileKind.xtc], 5, 2, -1, -1⟩).error =
        some RunError.bad_frame_range ∧
      Action.load_structure ∈
        (run_prologue ⟨1, false, [FileKind.gro, FileKind.xtc], 5, 2, -1, -1⟩).trace := by
  decide

/-- C4 (amended).  Every configuration error — no consumers registered, no
trajectory files resolved (both checked before anything is loaded), or an
invalid frame/time range (checked after the structure/topology files are
loaded) — makes `run` throw before the reader thread or any worker thread is
started, so the streaming run never begins; but the invalid-range errors are
raised only after structure/topology loading, not before every file open. -/
theorem c4_config_error_before_threads (cfg : RunConfig) :
    (((run_prologue cfg).error).isSome →
        Action.start_reader_thread ∉ (run_prologue cfg).trace ∧
          ∀ i, Action.start_worker_thread i ∉ (run_prologue cfg).trace) ∧
      (cfg.n_consumers = 0 →
        (run_prologue cfg).error = some RunError.no_consumers) ∧
      (cfg.first_frame ≥ 0 → cfg.last_frame ≥ 0 →
        cfg.last_frame < cfg.first_frame → ((run_prologue cfg).error).isSome) ∧
      (cfg.first_time ≥ 0 → cfg.last_time ≥ 0 →
        cfg.last_time < cfg.first_time → ((run_prologue cfg).error).isSome) :=
  ⟨fun h => run_prologue_threads_only_on_success cfg h,
   fun h0 => run_prologue_no_consumers cfg h0,
   fun ha hb hc => run_prologue_bad_frame_range cfg ha hb hc,
   fun ha hb hc => run_prologue_bad_time_range cfg ha hb hc⟩

theorem c4_config_error_before_threads_witness :
    (Action.start_reader_thread ∉
        (run_prologue ⟨1, false, [FileKind.gro, FileKind.xtc], 5, 2, -1, -1⟩).trace ∧
      ∀ i, Action.start_worker_thread i ∉
        (run_prologue ⟨1, false, [FileKind.gro, FileKind.xtc], 5, 2, -1, -1⟩).trace) ∧
      (run_prologue ⟨0, false, [], -1, -1, -1, -1⟩).error =
        some RunError.no_consumers ∧
      ((run_prologue ⟨1, false, [FileKind.gro, FileKind.xtc], 5, 2, -1, -1⟩).error).isSome ∧
      ((run_prologue ⟨1, false, [FileKind.xtc], -1, -1, 5, 2⟩).error).isSome :=
  ⟨(c4_config_error_before_threads
      ⟨1, false, [FileKind.gro, FileKind.xtc], 5, 2, -1, -1⟩).1 (by decide),
   (c4_config_error_before_threads ⟨0, false, [], -1, -1, -1, -1⟩).2.1 rfl,
   (c4_config_error_before_threads
      ⟨1, false, [FileKind.gro, FileKind.xtc], 5, 2, -1, -1⟩).2.2.1
     (by decide) (by decide) (by decide),
   (c4_config_error_before_threads ⟨1, false, [FileKind.xtc], -1, -1, 5, 2⟩).2.2.2
     (by decide) (by decide) (by decide)⟩

theorem scan_block_traj_only :
    ∀ bl : List FileKind,
      (∀ k ∈ bl, k = FileKind.trr ∨ k = FileKind.xtc ∨ k = FileKind.dcd ∨
        k = FileKind.other) →
      ∀ acc, ∃ trj, scan_block bl none none acc = Except.ok (none, none, trj) ∧
        (∀ k ∈ acc, k ∈ trj) ∧
        ∀ k ∈ bl, k ≠ FileKind.other → k ∈ trj := by
  intro bl
  induction bl with
  | nil =>
    intro _ acc
    exact ⟨acc, rfl, fun k hk => hk, by simp⟩
  | cons a rest ih =>
    intro h2 acc
    have h2' : ∀ k ∈ rest, k = FileKind.trr ∨ k = FileKind.xtc ∨
        k = FileKind.dcd ∨ k = FileKind.other :=
      fun k hk => h2 k (List.mem_cons_of_mem _ hk)
    rcases h2 a (List.mem_cons_self _ _) with ha | ha | ha | ha
    · subst ha
      obtain ⟨trj, hscan, hacc, hbl⟩ := ih h2' (acc ++ [FileKind.trr])
      refine ⟨trj, hscan, fun k hk => hacc k (List.mem_append_left _ hk), ?_⟩
      intro k hk hko
      rcases List.mem_cons.mp hk with hk | hk
      · subst hk
        exact hacc _ (List.mem_append_right _ (List.mem_singleton_self _))
      · exact hbl k hk hko
    · subst ha
      obtain ⟨trj, hscan, hacc, hbl⟩ := ih h2' (acc ++ [FileKind.xtc])
      refine ⟨trj, hscan, fun k hk => hacc k (List.mem_append_left _ hk), ?_⟩
      intro k hk hko
      rcases List.mem_cons.mp hk with hk | hk
      · subst hk
        exact hacc _ (List.mem_append_right _ (List.mem_singleton_self _))
      · exact hbl k hk hko
    · subst ha
      obtain ⟨trj, hscan, hacc, hbl⟩ := ih h2' (acc ++ [FileKind.dcd])
      refine ⟨trj, hscan, fun k hk => hacc k (List.mem_append_left _ hk), ?_⟩
      intro k hk hko
      rcases List.mem_cons.mp hk with hk | hk
      · subst hk
        exact hacc _ (List.mem_append_right _ (List.mem_singleton_self _))
      · exact hbl k hk hko
    · subst ha
      obtain ⟨trj, hscan, hacc, hbl⟩ := ih h2' acc
      refine ⟨trj, hscan, hacc, ?_⟩
      intro k hk hko
      rcases List.mem_cons.mp hk with hk | hk
      · exact absurd hk hko
      · exact hbl k hk hko

/-- C10.  When the trajectory block supplies neither a structure nor a
topology file (only trajectory files and unrecognized ones), the
missing-file branch on line 184 constructs a `Pteros_error` but never throws
it: `run` reports no error for this case, proceeds to start the reader
thread, and streams with the first consumer's system still in the cleared,
empty state left by line 171. -/
theorem c10_missing_structure_error_never_thrown (cfg : RunConfig)
    (h1 : 1 ≤ cfg.n_consumers)
    (h2 : ∀ k ∈ cfg.block_files, k = FileKind.trr ∨ k = FileKind.xtc ∨
      k = FileKind.dcd ∨ k = FileKind.other)
    (h3 : ∃ k ∈ cfg.block_files, k = FileKind.trr ∨ k = FileKind.xtc ∨
      k = FileKind.dcd)
    (h4 : ¬ (cfg.first_frame ≥ 0 ∧ cfg.last_frame ≥ 0 ∧
      cfg.last_frame < cfg.first_frame))
    (h5 : ¬ (cfg.first_time ≥ 0 ∧ cfg.last_time ≥ 0 ∧
      cfg.last_time < cfg.first_time)) :
    (run_prologue cfg).error = none ∧ (run_prologue cfg).sys0 = [] ∧
      Action.construct_unthrown_error ∈ (run_prologue cfg).trace ∧
      Action.start_reader_thread ∈ (run_prologue cfg).trace := by
  obtain ⟨trj, hscan, hacc, hbl⟩ := scan_block_traj_only cfg.block_files h2 []
  have htrj : ¬ trj = [] := by
    obtain ⟨k, hk, hkind⟩ := h3
    have hmem : k ∈ trj := hbl k hk
      (by rcases hkind with h | h | h <;> subst h <;> simp)
    intro he
    rw [he] at hmem
    cases hmem
  simp [run_prologue, hscan, htrj, h4, h5, show ¬ cfg.n_consumers = 0 by omega]

theorem c10_missing_structure_error_never_thrown_witness :
    (run_prologue ⟨1, false, [FileKind.xtc], -1, -1, -1, -1⟩).error = none ∧
      (run_prologue ⟨1, false, [FileKind.xtc], -1, -1, -1, -1⟩).sys0 = [] ∧
      Action.construct_unthrown_error ∈
        (run_prologue ⟨1, false, [FileKind.xtc], -1, -1, -1, -1⟩).trace ∧
      Action.start_reader_thread ∈
        (run_prologue ⟨1, false, [FileKind.xtc], -1, -1, -1, -1⟩).trace :=
  c10_missing_structure_error_never_thrown
    ⟨1, false, [FileKind.xtc], -1, -1, -1, -1⟩ (by decide) (by decide)
    (by decide) (by decide) (by decide)

end Pteros
